import Mathlib

/-
  Verification development for the export/packaging pipeline in
  src/scripts/export-parakeet-onnx.py (voxtype repository).

  The Python script is shallowly embedded below:
  * the external-data packing step (spec section 4.3, ExternalDataPacker) is
    modelled from the spec, since the relocation algorithm itself lives in the
    onnx library outside this repository (the script invokes it with
    size_threshold equal to 0, all_tensors_to_one_file, and a fixed location);
  * export_tdt_model, export_ctc_model, the MODELS registry and the per-model
    device-fallback loop of main() are translated directly from the source.
-/

namespace VoxtypeExport

/-- A tensor inside a serialized graph: either an embedded payload of raw
bytes, or a reference to a range of an external blob file. -/
inductive TensorData where
  | embedded (payload : List Nat)
  | external (location : String) (offset : Nat) (size : Nat)
deriving Repr, DecidableEq

/-- A serialized computation graph, reduced to its list of tensors (the only
part the packing step touches). -/
structure Graph where
  tensors : List TensorData
deriving Repr, DecidableEq

/-- Modelled from the spec: one step of the ExternalDataPacker (section 4.3).
The real relocation is performed by convert_model_to_external_data and
save_model from the onnx library, which the script calls with
size_threshold equal to 0 and a single shared location.  An embedded payload
whose byte size is at or above the threshold is appended to the blob and
replaced by a reference record (file name, offset, length). -/
def packStep (threshold : Nat) (location : String)
    (acc : List TensorData × List Nat) (t : TensorData) : List TensorData × List Nat :=
  match t with
  | TensorData.embedded p =>
    if threshold ≤ p.length then
      (acc.1 ++ [TensorData.external location acc.2.length p.length], acc.2 ++ p)
    else (acc.1 ++ [t], acc.2)
  | TensorData.external _ _ _ => (acc.1 ++ [t], acc.2)

/-- Modelled from the spec: the ExternalDataPacker pass over a whole graph,
returning the rewritten graph and the shared blob contents. -/
def packGraph (threshold : Nat) (location : String) (g : Graph) : Graph × List Nat :=
  let r := g.tensors.foldl (packStep threshold location) ([], [])
  (⟨r.1⟩, r.2)

/-- Resolving a reference record against a blob: the byte range
[offset, offset + size) of the blob. -/
def resolveRef (blob : List Nat) (offset size : Nat) : List Nat :=
  (blob.drop offset).take size

/-- Relation between an original tensor and its packed form: the original was
an embedded payload, the packed form is a reference into the named blob, the
reference is in bounds, and resolving it reproduces the payload exactly. -/
def RefOK (location : String) (blob : List Nat) (o q : TensorData) : Prop :=
  ∃ p off, o = TensorData.embedded p ∧ q = TensorData.external location off p.length ∧
    off + p.length ≤ blob.length ∧ resolveRef blob off p.length = p

theorem resolveRef_append (blob ext : List Nat) (off size : Nat)
    (h : off + size ≤ blob.length) :
    resolveRef (blob ++ ext) off size = resolveRef blob off size := by
  unfold resolveRef
  have hoff : off ≤ blob.length := le_trans (Nat.le_add_right off size) h
  rw [List.drop_append_of_le_length hoff]
  have hsz : size ≤ (blob.drop off).length := by
    rw [List.length_drop]
    omega
  rw [List.take_append_of_le_length hsz]

theorem RefOK_append (location : String) (blob ext : List Nat) (o q : TensorData)
    (h : RefOK location blob o q) : RefOK location (blob ++ ext) o q := by
  obtain ⟨p, off, ho, hq, hle, hres⟩ := h
  refine ⟨p, off, ho, hq, ?_, ?_⟩
  · calc off + p.length ≤ blob.length := hle
      _ ≤ (blob ++ ext).length := by simp
  · rw [resolveRef_append blob ext off p.length hle, hres]

theorem RefOK_new (location : String) (blob p : List Nat) :
    RefOK location (blob ++ p) (TensorData.embedded p)
      (TensorData.external location blob.length p.length) := by
  refine ⟨p, blob.length, rfl, rfl, by simp, ?_⟩
  unfold resolveRef
  rw [List.drop_left, List.take_length]

theorem pack_aux (location : String) (ts : List TensorData) :
    ∀ (origs : List TensorData) (acc : List TensorData × List Nat),
      (∀ t ∈ ts, ∃ p, t = TensorData.embedded p) →
      List.Forall₂ (RefOK location acc.2) origs acc.1 →
      List.Forall₂ (RefOK location (ts.foldl (packStep 0 location) acc).2)
        (origs ++ ts) (ts.foldl (packStep 0 location) acc).1 := by
  induction ts with
  | nil => intro origs acc _ h2; simpa using h2
  | cons t ts ih =>
    intro origs acc h1 h2
    obtain ⟨p, rfl⟩ := h1 t (List.mem_cons_self _ _)
    have hstep : packStep 0 location acc (TensorData.embedded p) =
        (acc.1 ++ [TensorData.external location acc.2.length p.length], acc.2 ++ p) := by
      simp [packStep]
    rw [List.foldl_cons, hstep]
    have h2' : List.Forall₂ (RefOK location (acc.2 ++ p))
        (origs ++ [TensorData.embedded p])
        (acc.1 ++ [TensorData.external location acc.2.length p.length]) := by
      refine List.rel_append ?_ ?_
      · exact h2.imp (fun o q hoq => RefOK_append location acc.2 p o q hoq)
      · exact List.Forall₂.cons (RefOK_new location acc.2 p) List.Forall₂.nil
    have h3 := ih (origs ++ [TensorData.embedded p])
      (acc.1 ++ [TensorData.external location acc.2.length p.length], acc.2 ++ p)
      (fun u hu => h1 u (List.mem_cons_of_mem _ hu)) h2'
    simpa [List.append_assoc] using h3

/-- Claim C1: for every serialized graph (all of whose tensors carry embedded
payloads, as the raw exporter produces them), packing with the zero-byte
threshold relocates every payload unconditionally into the single named blob
file, and resolving every reference in the packed graph against that blob
reproduces the original payload bytes exactly. -/
theorem pack_relocates_and_roundtrips (location : String) (g : Graph)
    (h : ∀ t ∈ g.tensors, ∃ p, t = TensorData.embedded p) :
    List.Forall₂ (RefOK location (packGraph 0 location g).2)
      g.tensors (packGraph 0 location g).1.tensors := by
  have h0 := pack_aux location g.tensors [] ([], []) h List.Forall₂.nil
  simpa [packGraph] using h0

/-- Concrete graph used to witness claim C1. -/
def g0 : Graph := ⟨[TensorData.embedded [1, 2, 3], TensorData.embedded [],
  TensorData.embedded [4, 5]]⟩

/-- Witness for claim C1 at a concrete graph and the blob name the script
uses for the TDT encoder. -/
theorem pack_relocates_and_roundtrips_witness :
    (∀ t ∈ g0.tensors, ∃ p, t = TensorData.embedded p) ∧
    List.Forall₂ (RefOK "encoder-model.onnx.data"
        (packGraph 0 "encoder-model.onnx.data" g0).2)
      g0.tensors (packGraph 0 "encoder-model.onnx.data" g0).1.tensors := by
  have hyp : ∀ t ∈ g0.tensors, ∃ p, t = TensorData.embedded p := by
    intro t ht
    simp only [g0, List.mem_cons, List.not_mem_nil, or_false] at ht
    rcases ht with rfl | rfl | rfl <;> exact ⟨_, rfl⟩
  exact ⟨hyp, pack_relocates_and_roundtrips "encoder-model.onnx.data" g0 hyp⟩

/-! ## Device strategy and the fallback loop of main() -/

/-- Compute devices, as in main(): cuda (Accelerated) and cpu (HostOnly). -/
inductive Device where
  | cuda
  | cpu
deriving Repr, DecidableEq

/-- Errors an export attempt (export_model) can raise, as classified by the
except clause in main(): torch.cuda.OutOfMemoryError, RuntimeError (each with
the flag "message text contains: out of memory"), SystemExit raised by
sys.exit, and any other exception type. -/
inductive ExpErr where
  | cudaOOM (msgHasOOM : Bool)
  | runtimeErr (msgHasOOM : Bool)
  | systemExit (code : Nat)
  | otherErr
deriving Repr, DecidableEq

/-- Whether the except clause in main() catches the error: it names exactly
torch.cuda.OutOfMemoryError and RuntimeError. -/
def isCaughtByHandler : ExpErr → Bool
  | ExpErr.cudaOOM _ => true
  | ExpErr.runtimeErr _ => true
  | _ => false

/-- The test inside the except clause: the lowercased message contains
"out of memory", or the exception is an instance of
torch.cuda.OutOfMemoryError. -/
def classifiedOOM : ExpErr → Bool
  | ExpErr.cudaOOM _ => true
  | ExpErr.runtimeErr b => b
  | _ => false

/-- An error triggers the CPU fallback exactly when the except clause catches
it and the in-clause test classifies it as out-of-memory. -/
def isResourceExhaustion (e : ExpErr) : Bool :=
  isCaughtByHandler e && classifiedOOM e

/-- Observable result of processing one requested model in the loop of
main(): which devices were attempted in order, whether
torch.cuda.empty_cache was called, and the final outcome. -/
structure JobResult where
  attempts : List Device
  clearedCache : Bool
  outcome : Except ExpErr Unit
deriving Repr

/-- One iteration of the for loop in main(): if the cpu-only flag is unset
and cuda is available, try export_model on cuda; on a caught out-of-memory
failure, empty the cache and run export_model once on cpu; any other failure
propagates unchanged; otherwise run export_model on cpu directly. -/
def runOneModel (cpuOnly cudaAvail : Bool) (attempt : Device → Except ExpErr Unit) :
    JobResult :=
  if !cpuOnly && cudaAvail then
    match attempt Device.cuda with
    | Except.ok _ => ⟨[Device.cuda], false, Except.ok ()⟩
    | Except.error e =>
      if isResourceExhaustion e then
        ⟨[Device.cuda, Device.cpu], true, attempt Device.cpu⟩
      else
        ⟨[Device.cuda], false, Except.error e⟩
  else
    ⟨[Device.cpu], false, attempt Device.cpu⟩

/-- Claim C2: a first attempt on the accelerated device that fails with a
resource-exhaustion error causes exactly one retry on the host device, after
clearing device-side transient state; the accelerated device is never
attempted again for that job, and the outcome of the job is exactly the
outcome of the host retry (so a host failure is fatal). -/
theorem oom_fallback_retries_once_hostonly (cpuOnly cudaAvail : Bool)
    (attempt : Device → Except ExpErr Unit) (e : ExpErr)
    (hco : cpuOnly = false) (hca : cudaAvail = true)
    (hfail : attempt Device.cuda = Except.error e)
    (hoom : isResourceExhaustion e = true) :
    runOneModel cpuOnly cudaAvail attempt =
      ⟨[Device.cuda, Device.cpu], true, attempt Device.cpu⟩ ∧
    (runOneModel cpuOnly cudaAvail attempt).attempts.count Device.cuda = 1 := by
  subst hco hca
  have hrun : runOneModel false true attempt =
      ⟨[Device.cuda, Device.cpu], true, attempt Device.cpu⟩ := by
    unfold runOneModel
    rw [hfail]
    simp [hoom]
  exact ⟨hrun, by rw [hrun]; rfl⟩

/-- Concrete attempt function witnessing claim C2: cuda runs out of memory,
cpu succeeds. -/
def attemptOOM : Device → Except ExpErr Unit
  | Device.cuda => Except.error (ExpErr.cudaOOM true)
  | Device.cpu => Except.ok ()

/-- Witness for claim C2 at a concrete attempt function. -/
theorem oom_fallback_retries_once_hostonly_witness :
    attemptOOM Device.cuda = Except.error (ExpErr.cudaOOM true) ∧
    isResourceExhaustion (ExpErr.cudaOOM true) = true ∧
    (runOneModel false true attemptOOM =
        ⟨[Device.cuda, Device.cpu], true, attemptOOM Device.cpu⟩ ∧
      (runOneModel false true attemptOOM).attempts.count Device.cuda = 1) :=
  ⟨rfl, rfl,
    oom_fallback_retries_once_hostonly false true attemptOOM (ExpErr.cudaOOM true)
      rfl rfl rfl rfl⟩

/-- Claim C3: an accelerated attempt that fails with an error not classified
as resource exhaustion triggers no host fallback; the error propagates
unchanged as the outcome of the job, with no cache clearing and no second
attempt. -/
theorem non_oom_error_propagates_unchanged (cpuOnly cudaAvail : Bool)
    (attempt : Device → Except ExpErr Unit) (e : ExpErr)
    (hco : cpuOnly = false) (hca : cudaAvail = true)
    (hfail : attempt Device.cuda = Except.error e)
    (hnoom : isResourceExhaustion e = false) :
    runOneModel cpuOnly cudaAvail attempt = ⟨[Device.cuda], false, Except.error e⟩ := by
  subst hco hca
  unfold runOneModel
  rw [hfail]
  simp [hnoom]

/-- Concrete attempt function witnessing claim C3: cuda fails with a
RuntimeError whose message does not mention memory. -/
def attemptRTE : Device → Except ExpErr Unit
  | Device.cuda => Except.error (ExpErr.runtimeErr false)
  | Device.cpu => Except.ok ()

/-- Witness for claim C3 at a concrete attempt function. -/
theorem non_oom_error_propagates_unchanged_witness :
    attemptRTE Device.cuda = Except.error (ExpErr.runtimeErr false) ∧
    isResourceExhaustion (ExpErr.runtimeErr false) = false ∧
    runOneModel false true attemptRTE =
      ⟨[Device.cuda], false, Except.error (ExpErr.runtimeErr false)⟩ :=
  ⟨rfl, rfl,
    non_oom_error_propagates_unchanged false true attemptRTE (ExpErr.runtimeErr false)
      rfl rfl rfl rfl⟩

/-- Claim C10: an accelerated (cuda) attempt is made if and only if the
cpu-only flag is unset and cuda is reported available; when cuda is
unavailable the job runs on cpu from the start with the fallback machinery
never engaged (single attempt, no cache clearing). -/
theorem accelerated_attempt_iff_enabled_and_available (cpuOnly cudaAvail : Bool)
    (attempt : Device → Except ExpErr Unit) :
    (Device.cuda ∈ (runOneModel cpuOnly cudaAvail attempt).attempts ↔
      (cpuOnly = false ∧ cudaAvail = true)) ∧
    (cudaAvail = false →
      runOneModel cpuOnly cudaAvail attempt = ⟨[Device.cpu], false, attempt Device.cpu⟩) := by
  constructor
  · cases cpuOnly <;> cases cudaAvail <;> simp only [runOneModel] <;> simp
    cases h : attempt Device.cuda with
    | ok u => simp
    | error e =>
      cases hre : isResourceExhaustion e <;> simp [hre]
  · intro h
    subst h
    cases cpuOnly <;> simp [runOneModel]

/-- Attempt function that always succeeds, for the claim C10 witness. -/
def attemptOk : Device → Except ExpErr Unit := fun _ => Except.ok ()

/-- Witness for claim C10: with cuda unavailable, the job is a single host
run with the fallback machinery never engaged. -/
theorem accelerated_attempt_iff_enabled_and_available_witness :
    runOneModel false false attemptOk = ⟨[Device.cpu], false, attemptOk Device.cpu⟩ :=
  (accelerated_attempt_iff_enabled_and_available false false attemptOk).2 rfl

/-! ## The batch loop over requested models -/

/-- Keys of the static MODELS registry. -/
inductive ModelKey where
  | ja
  | vi
deriving Repr, DecidableEq

/-- Architecture tags: TDT and CTC. -/
inductive Arch where
  | tdt
  | ctc
deriving Repr, DecidableEq

/-- One entry of the MODELS registry. -/
structure ModelSpec where
  hf_id : String
  arch : Arch
  output_dir : String
deriving Repr, DecidableEq

/-- The static MODELS registry of the script. -/
def MODELS : ModelKey → ModelSpec
  | ModelKey.ja => ⟨"nvidia/parakeet-tdt_ctc-0.6b-ja", Arch.tdt, "parakeet-tdt-0.6b-ja"⟩
  | ModelKey.vi => ⟨"nvidia/parakeet-ctc-0.6b-Vietnamese", Arch.ctc, "parakeet-ctc-0.6b-vi"⟩

/-- The full for loop of main() over the requested models, run strictly
sequentially.  Returns the per-model results for the models actually
processed, in order, together with the error that escaped the loop, if any.
An uncaught exception from one iteration propagates out of the loop, so
processing stops at the first model whose job ends in an error. -/
def runBatch (cpuOnly cudaAvail : Bool)
    (attempt : ModelKey → Device → Except ExpErr Unit) :
    List ModelKey → List (ModelKey × JobResult) × Option ExpErr
  | [] => ([], none)
  | k :: ks =>
    match (runOneModel cpuOnly cudaAvail (attempt k)).outcome with
    | Except.ok _ =>
      ((k, runOneModel cpuOnly cudaAvail (attempt k)) ::
          (runBatch cpuOnly cudaAvail attempt ks).1,
        (runBatch cpuOnly cudaAvail attempt ks).2)
    | Except.error e => ([(k, runOneModel cpuOnly cudaAvail (attempt k))], some e)

/-- Attempt function for the claim C4 counterexample: the ja model fails
fatally (sys.exit from a missing artifact), the vi model would succeed. -/
def attemptJaFails : ModelKey → Device → Except ExpErr Unit
  | ModelKey.ja, _ => Except.error (ExpErr.systemExit 1)
  | ModelKey.vi, _ => Except.ok ()

/-- Counterexample to claim C4: requesting both models with the first one
failing fatally stops the whole batch — the vi model is never attempted,
contradicting the claim that the runner continues with the next requested
model. -/
theorem batch_counterexample_stops_after_failure :
    runBatch true false attemptJaFails [ModelKey.ja, ModelKey.vi] =
      ([(ModelKey.ja, ⟨[Device.cpu], false, Except.error (ExpErr.systemExit 1)⟩)],
        some (ExpErr.systemExit 1)) ∧
    (runBatch true false attemptJaFails [ModelKey.ja, ModelKey.vi]).1.map Prod.fst =
      [ModelKey.ja] :=
  ⟨rfl, rfl⟩

/-- Claim C4 (amended): the models actually processed form a prefix of the
requested list; on a fatal failure the failing model is the last one
processed, every earlier model completed successfully (its outputs are
intact), and no later requested model is attempted; without a failure every
requested model is processed. -/
theorem batch_failure_aborts_remaining (cpuOnly cudaAvail : Bool)
    (attempt : ModelKey → Device → Except ExpErr Unit) :
    ∀ ks : List ModelKey,
      (∃ tail, ks = (runBatch cpuOnly cudaAvail attempt ks).1.map Prod.fst ++ tail) ∧
      ((runBatch cpuOnly cudaAvail attempt ks).2 = none →
        (runBatch cpuOnly cudaAvail attempt ks).1.map Prod.fst = ks) ∧
      (∀ q ∈ (runBatch cpuOnly cudaAvail attempt ks).1.dropLast,
        q.2.outcome = Except.ok ()) ∧
      (∀ e, (runBatch cpuOnly cudaAvail attempt ks).2 = some e →
        ∃ pre last, (runBatch cpuOnly cudaAvail attempt ks).1 = pre ++ [last] ∧
          last.2.outcome = Except.error e) := by
  intro ks
  induction ks with
  | nil =>
    refine ⟨⟨[], rfl⟩, fun _ => rfl, ?_, ?_⟩
    · intro q hq
      simp [runBatch] at hq
    · intro e he
      simp [runBatch] at he
  | cons k ks ih =>
    obtain ⟨⟨tail, htail⟩, hnone, hdrop, hsome⟩ := ih
    cases hr : (runOneModel cpuOnly cudaAvail (attempt k)).outcome with
    | ok u =>
      have hb : runBatch cpuOnly cudaAvail attempt (k :: ks) =
          ((k, runOneModel cpuOnly cudaAvail (attempt k)) ::
              (runBatch cpuOnly cudaAvail attempt ks).1,
            (runBatch cpuOnly cudaAvail attempt ks).2) := by
        conv_lhs => unfold runBatch
        rw [hr]
      refine ⟨⟨tail, ?_⟩, ?_, ?_, ?_⟩
      · rw [hb]
        simpa using htail
      · intro hn
        rw [hb] at hn ⊢
        simp only [List.map_cons]
        rw [hnone hn]
      · intro q hq
        rw [hb] at hq
        rcases hcons : (runBatch cpuOnly cudaAvail attempt ks).1 with _ | ⟨r, rs⟩
        · rw [hcons] at hq
          simp at hq
        · rw [hcons] at hq
          rw [List.dropLast_cons_of_ne_nil (by simp)] at hq
          rcases List.mem_cons.mp hq with rfl | hq2
          · rw [hr]
          · exact hdrop q (by rw [hcons]; exact hq2)
      · intro e he
        rw [hb] at he ⊢
        obtain ⟨pre, last, hpre, hlast⟩ := hsome e he
        exact ⟨(k, runOneModel cpuOnly cudaAvail (attempt k)) :: pre, last,
          by rw [hpre]; simp, hlast⟩
    | error e0 =>
      have hb : runBatch cpuOnly cudaAvail attempt (k :: ks) =
          ([(k, runOneModel cpuOnly cudaAvail (attempt k))], some e0) := by
        conv_lhs => unfold runBatch
        rw [hr]
      refine ⟨⟨ks, by rw [hb]; simp⟩, ?_, ?_, ?_⟩
      · intro hn
        rw [hb] at hn
        simp at hn
      · intro q hq
        rw [hb] at hq
        simp at hq
      · intro e he
        rw [hb] at he ⊢
        simp only [Option.some.injEq] at he
        exact ⟨[], (k, runOneModel cpuOnly cudaAvail (attempt k)),
          by simp, by rw [hr, he]⟩

/-- Witness for claim C4 (amended) at a concrete batch: the processed models
are a prefix of the request, and the failing model is the last processed with
the recorded error. -/
theorem batch_failure_aborts_remaining_witness :
    (∃ tail, [ModelKey.ja, ModelKey.vi] =
      (runBatch true false attemptJaFails [ModelKey.ja, ModelKey.vi]).1.map Prod.fst ++ tail) ∧
    (∃ pre last,
      (runBatch true false attemptJaFails [ModelKey.ja, ModelKey.vi]).1 = pre ++ [last] ∧
        last.2.outcome = Except.error (ExpErr.systemExit 1)) :=
  ⟨(batch_failure_aborts_remaining true false attemptJaFails [ModelKey.ja, ModelKey.vi]).1,
    (batch_failure_aborts_remaining true false attemptJaFails
      [ModelKey.ja, ModelKey.vi]).2.2.2 (ExpErr.systemExit 1) rfl⟩

/-! ## Tokenizer capabilities and the metadata writers -/

/-- A duck-typed model tokenizer, as probed by the script: an optional direct
vocabulary sequence (attribute vocab), an optional nested tokenizer with a
vocabulary mapping (tokenizer.get_vocab), an optional declared size
(attribute vocab_size) and an optional id-to-token lookup
(method ids_to_tokens, returning a possibly empty list of tokens).  A field
holding none models an absent attribute; accessing it raises. -/
structure Tokenizer where
  vocab : Option (List String)
  nestedGetVocab : Option (List (String × Nat))
  vocabSize : Option Nat
  idsToTokens : Option (Nat → List String)

/-- Python dict assignment d[k] = v on an association list: overwrite the
value in place when the key is present, otherwise append the new entry. -/
def dictSet (d : List (String × Nat)) (k : String) (v : Nat) : List (String × Nat) :=
  if d.any (fun p => p.1 == k) then
    d.map (fun p => if p.1 == k then (k, v) else p)
  else d ++ [(k, v)]

/-- Strategy 1 of the CTC metadata writer: enumerate the direct vocabulary,
assigning vocab[token] = i for each index. -/
def vocabDict (vs : List String) : List (String × Nat) :=
  vs.enum.foldl (fun d p => dictSet d p.2 p.1) []

/-- Strategy 3 of the CTC metadata writer: for every id below the declared
size, look the id up; if the returned token list is non-empty, assign
vocab[token[0]] = i, otherwise skip the id. -/
def fallbackVocab (n : Nat) (f : Nat → List String) : List (String × Nat) :=
  (List.range n).foldl
    (fun d i => match f i with
      | [] => d
      | t :: _ => dictSet d t i) []

/-- Errors of the export variants: a missing expected raw artifact (carrying
the expected name and the actual scratch-directory contents for diagnosis),
and the failure of every tokenizer probe (the attribute-access error raised
when none of the vocabulary-extraction strategies is available, named
UnsupportedTokenizer by the spec). -/
inductive ExportErr where
  | missingArtifact (expected : String) (found : List String)
  | unsupportedTokenizer
deriving Repr, DecidableEq

/-- The vocabulary-mapping construction of export_ctc_model: use the direct
vocabulary if present, else the nested tokenizer mapping if present, else
enumerate ids 0..vocab_size using ids_to_tokens.  In the fallback the code
reads vocab_size first (absent: raises) and calls ids_to_tokens once per id
(absent: raises at the first iteration, hence only when the size is
positive). -/
def buildCtcVocab (tok : Tokenizer) : Except ExportErr (List (String × Nat)) :=
  match tok.vocab with
  | some vs => Except.ok (vocabDict vs)
  | none =>
    match tok.nestedGetVocab with
    | some m => Except.ok m
    | none =>
      match tok.vocabSize with
      | none => Except.error ExportErr.unsupportedTokenizer
      | some n =>
        match tok.idsToTokens with
        | some f => Except.ok (fallbackVocab n f)
        | none =>
          if n = 0 then Except.ok [] else Except.error ExportErr.unsupportedTokenizer

/-- Contents of a file written into the output directory. -/
inductive FileContent where
  | graphFile (g : Graph)
  | blobFile (b : List Nat)
  | vocabText (lines : List (String × Nat))
  | tokenizerJson (version mtype : String) (vocab : List (String × Nat))
  | configJson (model_type : String) (features_size : Nat) (subsampling_factor : Nat)
      (enable_local_attn : Bool) (conv_chunking_factor : Int)
deriving Repr, DecidableEq

/-- Lookup of a file by name in a directory listing. -/
def lookupFile {α : Type} (files : List (String × α)) (name : String) : Option α :=
  (files.find? (fun p => p.1 == name)).map Prod.snd

/-- The names of the files in a directory listing. -/
def fileNames {α : Type} (files : List (String × α)) : List String :=
  files.map Prod.fst

/-- Result of an export variant: the files present in the output directory
when it returned or aborted, and the error it aborted with, if any (the
script maps every such error to a non-zero process exit). -/
structure ExportOutcome where
  files : List (String × FileContent)
  err : Option ExportErr
deriving Repr, DecidableEq

/-- The vocab.txt lines of export_tdt_model: the vocabulary followed by the
trailing blank symbol, each token paired with its zero-based index. -/
def tdtVocabLines (vs : List String) : List (String × Nat) :=
  ((vs ++ ["<blk>"]).enum).map (fun p => (p.2, p.1))

/-- export_tdt_model: require encoder-model.onnx in the scratch directory
(else fail with the scratch contents listed), pack it into
encoder-model.onnx.data, require decoder_joint-model.onnx and move it, then
write vocab.txt from the direct vocabulary and the fixed config.json.  The
code opens vocab.txt for writing before it touches the vocabulary attribute,
so when that attribute is missing the raised access error leaves an empty
vocab.txt behind. -/
def export_tdt_model (raw : List (String × Graph)) (tok : Tokenizer) : ExportOutcome :=
  match lookupFile raw "encoder-model.onnx" with
  | none => ⟨[], some (ExportErr.missingArtifact "encoder-model.onnx" (fileNames raw))⟩
  | some enc =>
    match lookupFile raw "decoder_joint-model.onnx" with
    | none =>
      ⟨[("encoder-model.onnx",
          FileContent.graphFile (packGraph 0 "encoder-model.onnx.data" enc).1),
        ("encoder-model.onnx.data",
          FileContent.blobFile (packGraph 0 "encoder-model.onnx.data" enc).2)],
        some (ExportErr.missingArtifact "decoder_joint-model.onnx" (fileNames raw))⟩
    | some dec =>
      match tok.vocab with
      | none =>
        ⟨[("encoder-model.onnx",
            FileContent.graphFile (packGraph 0 "encoder-model.onnx.data" enc).1),
          ("encoder-model.onnx.data",
            FileContent.blobFile (packGraph 0 "encoder-model.onnx.data" enc).2),
          ("decoder_joint-model.onnx", FileContent.graphFile dec),
          ("vocab.txt", FileContent.vocabText [])],
          some ExportErr.unsupportedTokenizer⟩
      | some vs =>
        ⟨[("encoder-model.onnx",
            FileContent.graphFile (packGraph 0 "encoder-model.onnx.data" enc).1),
          ("encoder-model.onnx.data",
            FileContent.blobFile (packGraph 0 "encoder-model.onnx.data" enc).2),
          ("decoder_joint-model.onnx", FileContent.graphFile dec),
          ("vocab.txt", FileContent.vocabText (tdtVocabLines vs)),
          ("config.json", FileContent.configJson "nemo-conformer-tdt" 128 8 true (-1))],
          none⟩

/-- The ordered candidate names export_ctc_model probes for the raw graph. -/
def ctcCandidates : List String := ["model.onnx", "encoder-model.onnx"]

/-- The probe of export_ctc_model: the first candidate name that exists in
the scratch directory. -/
def findExported (raw : List (String × Graph)) : Option String :=
  ctcCandidates.find? (fun c => (lookupFile raw c).isSome)

/-- export_ctc_model: probe the candidate names (failing with the scratch
contents listed when none exists), pack the found graph into model.onnx_data,
build the tokenizer mapping (any failure there aborts after the graph and
blob were already written), then write tokenizer.json and the fixed
config.json. -/
def export_ctc_model (raw : List (String × Graph)) (tok : Tokenizer) : ExportOutcome :=
  match findExported raw with
  | none => ⟨[], some (ExportErr.missingArtifact "model.onnx" (fileNames raw))⟩
  | some c =>
    match lookupFile raw c with
    | none => ⟨[], some (ExportErr.missingArtifact c (fileNames raw))⟩
    | some g =>
      match buildCtcVocab tok with
      | Except.error e =>
        ⟨[("model.onnx", FileContent.graphFile (packGraph 0 "model.onnx_data" g).1),
          ("model.onnx_data", FileContent.blobFile (packGraph 0 "model.onnx_data" g).2)],
          some e⟩
      | Except.ok v =>
        ⟨[("model.onnx", FileContent.graphFile (packGraph 0 "model.onnx_data" g).1),
          ("model.onnx_data", FileContent.blobFile (packGraph 0 "model.onnx_data" g).2),
          ("tokenizer.json", FileContent.tokenizerJson "1.0" "BPE" v),
          ("config.json", FileContent.configJson "nemo-conformer-ctc" 128 8 true (-1))],
          none⟩

/-- Dispatch of export_model on the architecture tag of the ModelSpec. -/
def export_for_arch (a : Arch) (raw : List (String × Graph)) (tok : Tokenizer) :
    ExportOutcome :=
  match a with
  | Arch.tdt => export_tdt_model raw tok
  | Arch.ctc => export_ctc_model raw tok

/-- Claim C6: a TDT export whose raw-export step did not produce the encoder
graph in the scratch directory fails with MissingArtifact, reporting the
actual scratch contents, and writes nothing into the output directory (the
error maps to a non-zero exit, so the partial directory is never silently
treated as complete). -/
theorem tdt_missing_encoder_fails_missing_artifact (raw : List (String × Graph))
    (tok : Tokenizer) (h : lookupFile raw "encoder-model.onnx" = none) :
    export_tdt_model raw tok =
      ⟨[], some (ExportErr.missingArtifact "encoder-model.onnx" (fileNames raw))⟩ := by
  unfold export_tdt_model
  rw [h]

/-- Tokenizer with no capabilities at all (no vocab attribute, no nested
tokenizer, no declared size, no id-to-token lookup). -/
def noCapTok : Tokenizer := ⟨none, none, none, none⟩

/-- Scratch directory holding only a decoder-joint graph, as in the testable
property of the spec for claim C6. -/
def rawDecOnly : List (String × Graph) :=
  [("decoder_joint-model.onnx", ⟨[TensorData.embedded [9]]⟩)]

/-- Witness for claim C6 at a scratch directory holding only the
decoder-joint file. -/
theorem tdt_missing_encoder_fails_missing_artifact_witness :
    lookupFile rawDecOnly "encoder-model.onnx" = none ∧
    export_tdt_model rawDecOnly noCapTok =
      ⟨[], some (ExportErr.missingArtifact "encoder-model.onnx" (fileNames rawDecOnly))⟩ :=
  ⟨rfl, tdt_missing_encoder_fails_missing_artifact rawDecOnly noCapTok rfl⟩

/-- Claim C7: the CTC variant probes the ordered candidate names and uses the
first that exists: if model.onnx exists it is the packed source; if not but
encoder-model.onnx exists, that one is; if neither exists the export fails
with MissingArtifact, reporting the scratch contents, and writes nothing. -/
theorem ctc_probes_candidates_in_order (raw : List (String × Graph)) (tok : Tokenizer) :
    (∀ g, lookupFile raw "model.onnx" = some g →
      lookupFile (export_ctc_model raw tok).files "model.onnx" =
        some (FileContent.graphFile (packGraph 0 "model.onnx_data" g).1)) ∧
    (lookupFile raw "model.onnx" = none →
      ∀ g, lookupFile raw "encoder-model.onnx" = some g →
        lookupFile (export_ctc_model raw tok).files "model.onnx" =
          some (FileContent.graphFile (packGraph 0 "model.onnx_data" g).1)) ∧
    (lookupFile raw "model.onnx" = none →
      lookupFile raw "encoder-model.onnx" = none →
      export_ctc_model raw tok =
        ⟨[], some (ExportErr.missingArtifact "model.onnx" (fileNames raw))⟩) := by
  refine ⟨?_, ?_, ?_⟩
  · intro g hg
    have hf : findExported raw = some "model.onnx" := by
      unfold findExported ctcCandidates
      rw [List.find?_cons_of_pos _ (by rw [hg]; rfl)]
    unfold export_ctc_model
    simp only [hf, hg]
    cases hv : buildCtcVocab tok with
    | error e => simp only [hv]; rfl
    | ok v => simp only [hv]; rfl
  · intro hg g he
    have hf : findExported raw = some "encoder-model.onnx" := by
      unfold findExported ctcCandidates
      rw [List.find?_cons_of_neg _ (by simp [hg])]
      rw [List.find?_cons_of_pos _ (by rw [he]; rfl)]
    unfold export_ctc_model
    simp only [hf, he]
    cases hv : buildCtcVocab tok with
    | error e => simp only [hv]; rfl
    | ok v => simp only [hv]; rfl
  · intro hg he
    have hf : findExported raw = none := by
      unfold findExported ctcCandidates
      rw [List.find?_cons_of_neg _ (by simp [hg])]
      rw [List.find?_cons_of_neg _ (by simp [he])]
      rfl
    unfold export_ctc_model
    rw [hf]

/-- Concrete graph for the claim C7 witness. -/
def gC7 : Graph := ⟨[TensorData.embedded [7, 8]]⟩

/-- Scratch directory whose only graph carries the alternative candidate
name. -/
def rawEncOnly : List (String × Graph) := [("encoder-model.onnx", gC7)]

/-- Witness for claim C7: with only the second candidate name present, the
export packs that graph. -/
theorem ctc_probes_candidates_in_order_witness :
    lookupFile rawEncOnly "model.onnx" = none ∧
    lookupFile rawEncOnly "encoder-model.onnx" = some gC7 ∧
    lookupFile (export_ctc_model rawEncOnly noCapTok).files "model.onnx" =
      some (FileContent.graphFile (packGraph 0 "model.onnx_data" gC7).1) :=
  ⟨rfl, rfl, (ctc_probes_candidates_in_order rawEncOnly noCapTok).2.1 rfl gC7 rfl⟩

/-- The file set the section 6 table of the spec prescribes per architecture.
Spec-side definition, compared against the output of the embedded code. -/
def specFileSet : Arch → List String
  | Arch.tdt => ["encoder-model.onnx", "encoder-model.onnx.data",
      "decoder_joint-model.onnx", "vocab.txt", "config.json"]
  | Arch.ctc => ["model.onnx", "model.onnx_data", "tokenizer.json", "config.json"]

/-- The config.json record the spec prescribes per architecture: the
architecture-tagged model_type and the four fixed fields.  Spec-side
definition, compared against the output of the embedded code. -/
def specConfig : Arch → FileContent
  | Arch.tdt => FileContent.configJson "nemo-conformer-tdt" 128 8 true (-1)
  | Arch.ctc => FileContent.configJson "nemo-conformer-ctc" 128 8 true (-1)

theorem tdt_success_shape (raw : List (String × Graph)) (tok : Tokenizer)
    (h : (export_tdt_model raw tok).err = none) :
    fileNames (export_tdt_model raw tok).files = specFileSet Arch.tdt ∧
    lookupFile (export_tdt_model raw tok).files "config.json" =
      some (specConfig Arch.tdt) := by
  cases he : lookupFile raw "encoder-model.onnx" with
  | none => simp [export_tdt_model, he] at h
  | some enc =>
    cases hd : lookupFile raw "decoder_joint-model.onnx" with
    | none => simp [export_tdt_model, he, hd] at h
    | some dec =>
      cases hv : tok.vocab with
      | none => simp [export_tdt_model, he, hd, hv] at h
      | some vs =>
        have hout : export_tdt_model raw tok =
            ⟨[("encoder-model.onnx",
                FileContent.graphFile (packGraph 0 "encoder-model.onnx.data" enc).1),
              ("encoder-model.onnx.data",
                FileContent.blobFile (packGraph 0 "encoder-model.onnx.data" enc).2),
              ("decoder_joint-model.onnx", FileContent.graphFile dec),
              ("vocab.txt", FileContent.vocabText (tdtVocabLines vs)),
              ("config.json", FileContent.configJson "nemo-conformer-tdt" 128 8 true (-1))],
              none⟩ := by
          unfold export_tdt_model
          simp only [he, hd, hv]
        rw [hout]
        exact ⟨rfl, rfl⟩

theorem ctc_success_shape (raw : List (String × Graph)) (tok : Tokenizer)
    (h : (export_ctc_model raw tok).err = none) :
    fileNames (export_ctc_model raw tok).files = specFileSet Arch.ctc ∧
    lookupFile (export_ctc_model raw tok).files "config.json" =
      some (specConfig Arch.ctc) := by
  cases hf : findExported raw with
  | none => simp [export_ctc_model, hf] at h
  | some c =>
    cases hl : lookupFile raw c with
    | none => simp [export_ctc_model, hf, hl] at h
    | some g =>
      cases hb : buildCtcVocab tok with
      | error e => simp [export_ctc_model, hf, hl, hb] at h
      | ok v =>
        have hout : export_ctc_model raw tok =
            ⟨[("model.onnx", FileContent.graphFile (packGraph 0 "model.onnx_data" g).1),
              ("model.onnx_data", FileContent.blobFile (packGraph 0 "model.onnx_data" g).2),
              ("tokenizer.json", FileContent.tokenizerJson "1.0" "BPE" v),
              ("config.json", FileContent.configJson "nemo-conformer-ctc" 128 8 true (-1))],
              none⟩ := by
          unfold export_ctc_model
          simp only [hf, hl, hb]
        rw [hout]
        exact ⟨rfl, rfl⟩

/-- Claim C8: every successful export of a known ModelSpec produces exactly
the architecture's file set from the section 6 table, and config.json holds
exactly the architecture-tagged model_type together with
features_size 128, subsampling_factor 8, enable_local_attn true and
conv_chunking_factor minus one. -/
theorem successful_export_file_sets_and_config (k : ModelKey)
    (raw : List (String × Graph)) (tok : Tokenizer)
    (h : (export_for_arch (MODELS k).arch raw tok).err = none) :
    fileNames (export_for_arch (MODELS k).arch raw tok).files =
      specFileSet (MODELS k).arch ∧
    lookupFile (export_for_arch (MODELS k).arch raw tok).files "config.json" =
      some (specConfig (MODELS k).arch) := by
  cases k with
  | ja => exact tdt_success_shape raw tok h
  | vi => exact ctc_success_shape raw tok h

/-- Scratch directory of a successful TDT raw export. -/
def rawTdt : List (String × Graph) :=
  [("encoder-model.onnx", ⟨[TensorData.embedded [1, 2]]⟩),
   ("decoder_joint-model.onnx", ⟨[TensorData.embedded [3]]⟩)]

/-- Tokenizer with a direct vocabulary. -/
def tokVocab : Tokenizer := ⟨some ["a", "b"], none, none, none⟩

/-- Scratch directory of a successful CTC raw export. -/
def rawCtc : List (String × Graph) := [("model.onnx", ⟨[TensorData.embedded [4, 5]]⟩)]

/-- Witness for claim C8 on both registered models, at concrete successful
exports. -/
theorem successful_export_file_sets_and_config_witness :
    ((export_for_arch (MODELS ModelKey.ja).arch rawTdt tokVocab).err = none ∧
      fileNames (export_for_arch (MODELS ModelKey.ja).arch rawTdt tokVocab).files =
        specFileSet (MODELS ModelKey.ja).arch ∧
      lookupFile (export_for_arch (MODELS ModelKey.ja).arch rawTdt tokVocab).files
          "config.json" = some (specConfig (MODELS ModelKey.ja).arch)) ∧
    ((export_for_arch (MODELS ModelKey.vi).arch rawCtc tokVocab).err = none ∧
      fileNames (export_for_arch (MODELS ModelKey.vi).arch rawCtc tokVocab).files =
        specFileSet (MODELS ModelKey.vi).arch ∧
      lookupFile (export_for_arch (MODELS ModelKey.vi).arch rawCtc tokVocab).files
          "config.json" = some (specConfig (MODELS ModelKey.vi).arch)) := by
  have hja : (export_for_arch (MODELS ModelKey.ja).arch rawTdt tokVocab).err = none := rfl
  have hvi : (export_for_arch (MODELS ModelKey.vi).arch rawCtc tokVocab).err = none := rfl
  have wja := successful_export_file_sets_and_config ModelKey.ja rawTdt tokVocab hja
  have wvi := successful_export_file_sets_and_config ModelKey.vi rawCtc tokVocab hvi
  exact ⟨⟨hja, wja.1, wja.2⟩, ⟨hvi, wvi.1, wvi.2⟩⟩

/-- Tokenizer that exposes none of the three vocabulary-extraction
strategies: no direct vocabulary, no nested mapping, no id-to-token lookup —
it merely declares a vocabulary size of zero. -/
def zeroSizeTok : Tokenizer := ⟨none, none, some 0, none⟩

/-- Counterexample to claim C5: a tokenizer exposing none of the three
strategies but declaring size zero makes the CTC metadata writer succeed and
emit a tokenizer-mapping file with an empty vocabulary, instead of failing
with UnsupportedTokenizer — the id loop runs zero times, so the missing
lookup is never touched. -/
theorem zero_size_tokenizer_emits_empty_mapping :
    buildCtcVocab zeroSizeTok = Except.ok [] ∧
    (export_ctc_model rawCtc zeroSizeTok).err = none ∧
    lookupFile (export_ctc_model rawCtc zeroSizeTok).files "tokenizer.json" =
      some (FileContent.tokenizerJson "1.0" "BPE" []) :=
  ⟨rfl, rfl, rfl⟩

/-- Claim C5 (amended): a tokenizer exposing none of the three strategies
makes the CTC metadata writer fail with UnsupportedTokenizer before any
tokenizer-mapping file is written — except when it declares a vocabulary
size of exactly zero while lacking the lookup, in which case an empty
mapping file is emitted instead. -/
theorem unsupported_tokenizer_fails_without_file (raw : List (String × Graph))
    (tok : Tokenizer) (hv : tok.vocab = none) (hn : tok.nestedGetVocab = none)
    (hi : tok.idsToTokens = none) (hs : tok.vocabSize ≠ some 0) :
    buildCtcVocab tok = Except.error ExportErr.unsupportedTokenizer ∧
    (export_ctc_model raw tok).err ≠ none ∧
    lookupFile (export_ctc_model raw tok).files "tokenizer.json" = none := by
  have hb : buildCtcVocab tok = Except.error ExportErr.unsupportedTokenizer := by
    unfold buildCtcVocab
    rw [hv, hn, hi]
    cases hsz : tok.vocabSize with
    | none => rfl
    | some n =>
      cases n with
      | zero => exact absurd hsz hs
      | succ m => simp
  refine ⟨hb, ?_⟩
  cases hf : findExported raw with
  | none =>
    have hout : export_ctc_model raw tok =
        ⟨[], some (ExportErr.missingArtifact "model.onnx" (fileNames raw))⟩ := by
      unfold export_ctc_model
      simp only [hf]
    rw [hout]
    exact ⟨by simp, rfl⟩
  | some c =>
    cases hl : lookupFile raw c with
    | none =>
      have hout : export_ctc_model raw tok =
          ⟨[], some (ExportErr.missingArtifact c (fileNames raw))⟩ := by
        unfold export_ctc_model
        simp only [hf, hl]
      rw [hout]
      exact ⟨by simp, rfl⟩
    | some g =>
      have hout : export_ctc_model raw tok =
          ⟨[("model.onnx", FileContent.graphFile (packGraph 0 "model.onnx_data" g).1),
            ("model.onnx_data", FileContent.blobFile (packGraph 0 "model.onnx_data" g).2)],
            some ExportErr.unsupportedTokenizer⟩ := by
        unfold export_ctc_model
        simp only [hf, hl, hb]
      rw [hout]
      exact ⟨by simp, rfl⟩

/-- Witness for claim C5 (amended) at a tokenizer with no capabilities at
all. -/
theorem unsupported_tokenizer_fails_without_file_witness :
    buildCtcVocab noCapTok = Except.error ExportErr.unsupportedTokenizer ∧
    (export_ctc_model rawCtc noCapTok).err ≠ none ∧
    lookupFile (export_ctc_model rawCtc noCapTok).files "tokenizer.json" = none :=
  unsupported_tokenizer_fails_without_file rawCtc noCapTok rfl rfl rfl
    (fun h => Option.noConfusion h)

/-- Tokenizer exposing only an id-to-token lookup whose distinct ids yield
the same token. -/
def dupTok : Tokenizer := ⟨none, none, some 2, some (fun _ => ["a"])⟩

/-- Counterexample to claim C9: ids 0 and 1 both yield the non-empty token
a, yet the produced mapping is only the single entry (a, 1) — the entry for
id 0 was overwritten, so the mapping does not contain every id whose lookup
returned a non-empty token. -/
theorem duplicate_token_drops_earlier_id :
    buildCtcVocab dupTok = Except.ok [("a", 1)] ∧
    ("a", 0) ∉ [("a", (1 : Nat))] :=
  ⟨rfl, by decide⟩

theorem mem_dictSet (d : List (String × Nat)) (k : String) (v : Nat) (p : String × Nat)
    (hp : p ∈ dictSet d k v) : p ∈ d ∨ p = (k, v) := by
  unfold dictSet at hp
  by_cases h : d.any (fun q => q.1 == k)
  · rw [if_pos h] at hp
    obtain ⟨q, hq, hqe⟩ := List.mem_map.mp hp
    by_cases hk : q.1 == k
    · rw [if_pos hk] at hqe
      right
      exact hqe.symm
    · rw [if_neg hk] at hqe
      left
      rw [← hqe]
      exact hq
  · rw [if_neg h] at hp
    rcases List.mem_append.mp hp with h1 | h2
    · left; exact h1
    · right; simpa using h2

theorem fallback_aux (f : Nat → List String) :
    ∀ (l : List Nat) (d : List (String × Nat)) (p : String × Nat),
      p ∈ l.foldl (fun d i => match f i with | [] => d | t :: _ => dictSet d t i) d →
      p ∈ d ∨ ∃ i ∈ l, (f i).head? = some p.1 ∧ p.2 = i := by
  intro l
  induction l with
  | nil => intro d p hp; left; simpa using hp
  | cons i l ih =>
    intro d p hp
    simp only [List.foldl_cons] at hp
    rcases hfi : f i with _ | ⟨t, ts⟩
    · simp only [hfi] at hp
      rcases ih d p hp with h1 | ⟨j, hj, hh⟩
      · left; exact h1
      · right; exact ⟨j, List.mem_cons_of_mem _ hj, hh⟩
    · simp only [hfi] at hp
      rcases ih (dictSet d t i) p hp with h1 | ⟨j, hj, hh⟩
      · rcases mem_dictSet d t i p h1 with h2 | h2
        · left; exact h2
        · right
          refine ⟨i, List.mem_cons_self _ _, ?_⟩
          rw [h2]
          simp [hfi]
      · right; exact ⟨j, List.mem_cons_of_mem _ hj, hh⟩

theorem mem_fallbackVocab (n : Nat) (f : Nat → List String) (p : String × Nat)
    (hp : p ∈ fallbackVocab n f) : p.2 < n ∧ (f p.2).head? = some p.1 := by
  rcases fallback_aux f (List.range n) [] p hp with h | ⟨i, hi, hh, he⟩
  · simp at h
  · rw [he]
    exact ⟨List.mem_range.mp hi, hh⟩

theorem dictSet_append (d : List (String × Nat)) (k : String) (v : Nat)
    (h : d.any (fun q => q.1 == k) = false) : dictSet d k v = d ++ [(k, v)] := by
  simp [dictSet, h]

theorem fallback_eq_filterMap (f : Nat → List String) :
    ∀ n : Nat,
      (∀ i ∈ List.range n, ∀ j ∈ List.range n, i ≠ j → f i ≠ [] → f j ≠ [] →
        (f i).head? ≠ (f j).head?) →
      fallbackVocab n f =
        (List.range n).filterMap (fun i => ((f i).head?).map (fun t => (t, i))) := by
  intro n
  induction n with
  | zero => intro _; rfl
  | succ m ih =>
    intro hdist
    have hdist2 : ∀ i ∈ List.range m, ∀ j ∈ List.range m, i ≠ j → f i ≠ [] → f j ≠ [] →
        (f i).head? ≠ (f j).head? := by
      intro i hi j hj
      exact hdist i
        (List.mem_range.mpr (lt_trans (List.mem_range.mp hi) (Nat.lt_succ_self m)))
        j (List.mem_range.mpr (lt_trans (List.mem_range.mp hj) (Nat.lt_succ_self m)))
    have hm := ih hdist2
    have h1 : fallbackVocab (m + 1) f =
        (match f m with
          | [] => fallbackVocab m f
          | t :: _ => dictSet (fallbackVocab m f) t m) := by
      unfold fallbackVocab
      rw [List.range_succ, List.foldl_append]
      rfl
    rcases hfm : f m with _ | ⟨t, ts⟩
    · simp only [hfm] at h1
      rw [h1, List.range_succ, List.filterMap_append, hm]
      simp [hfm]
    · simp only [hfm] at h1
      have hkeys : (fallbackVocab m f).any (fun q => q.1 == t) = false := by
        rcases hc : (fallbackVocab m f).any (fun q => q.1 == t) with _ | _
        · rfl
        · exfalso
          obtain ⟨q, hq, hqt⟩ := List.any_eq_true.mp hc
          have hq1 : q.1 = t := beq_iff_eq.mp hqt
          have hq2 := mem_fallbackVocab m f q hq
          refine hdist q.2
            (List.mem_range.mpr (lt_trans hq2.1 (Nat.lt_succ_self m)))
            m (List.mem_range.mpr (Nat.lt_succ_self m))
            (Nat.ne_of_lt hq2.1) ?_ ?_ ?_
          · intro hnil
            rw [hnil] at hq2
            exact Option.noConfusion hq2.2
          · rw [hfm]
            exact fun hx => List.noConfusion hx
          · rw [hq2.2, hfm, hq1]
            rfl
      rw [h1, dictSet_append _ _ _ hkeys, hm, List.range_succ, List.filterMap_append]
      simp [hfm]

theorem fallbackVocab_succ (f : Nat → List String) (m : Nat) :
    fallbackVocab (m + 1) f =
      (match f m with
        | [] => fallbackVocab m f
        | t :: _ => dictSet (fallbackVocab m f) t m) := by
  unfold fallbackVocab
  rw [List.range_succ, List.foldl_append]
  rfl

theorem mem_dictSet_self (d : List (String × Nat)) (k : String) (v : Nat) :
    (k, v) ∈ dictSet d k v := by
  unfold dictSet
  by_cases h : d.any (fun q => q.1 == k)
  · rw [if_pos h]
    obtain ⟨q, hq, hqk⟩ := List.any_eq_true.mp h
    refine List.mem_map.mpr ⟨q, hq, ?_⟩
    rw [if_pos hqk]
  · rw [if_neg h]
    exact List.mem_append_right _ (List.mem_singleton.mpr rfl)

theorem mem_dictSet_of_ne (d : List (String × Nat)) (k : String) (v : Nat)
    (p : String × Nat) (hp : p ∈ d) (hne : p.1 ≠ k) : p ∈ dictSet d k v := by
  unfold dictSet
  by_cases h : d.any (fun q => q.1 == k)
  · rw [if_pos h]
    have hmap : (if p.1 == k then (k, v) else p) ∈
        d.map (fun q => if q.1 == k then (k, v) else q) :=
      List.mem_map_of_mem _ hp
    rw [if_neg (fun hc => hne (beq_iff_eq.mp hc))] at hmap
    exact hmap
  · rw [if_neg h]
    exact List.mem_append_left _ hp

theorem pairwise_keys_dictSet (d : List (String × Nat)) (k : String) (v : Nat)
    (h : d.Pairwise (fun p q => p.1 ≠ q.1)) :
    (dictSet d k v).Pairwise (fun p q => p.1 ≠ q.1) := by
  unfold dictSet
  by_cases hany : d.any (fun q => q.1 == k)
  · rw [if_pos hany, List.pairwise_map]
    have hg : ∀ p : String × Nat,
        ((if p.1 == k then (k, v) else p) : String × Nat).1 = p.1 := by
      intro p
      by_cases hk : p.1 == k
      · rw [if_pos hk]
        exact (beq_iff_eq.mp hk).symm
      · rw [if_neg hk]
    exact h.imp (fun hab => by rw [hg, hg]; exact hab)
  · rw [if_neg hany, List.pairwise_append]
    refine ⟨h, List.pairwise_singleton _ _, ?_⟩
    intro a ha b hb
    rw [List.mem_singleton] at hb
    subst hb
    intro hc
    exact hany (List.any_eq_true.mpr ⟨a, ha, beq_iff_eq.mpr hc⟩)

theorem pairwise_ne_of_mem {l : List (String × Nat)}
    (hp : l.Pairwise (fun p q => p.1 ≠ q.1)) {a b : String × Nat}
    (ha : a ∈ l) (hb : b ∈ l) (hab : a ≠ b) : a.1 ≠ b.1 := by
  induction l with
  | nil => cases ha
  | cons x xs ih =>
    rcases List.pairwise_cons.mp hp with ⟨hx, hxs⟩
    rcases List.mem_cons.mp ha with rfl | ha2
    · rcases List.mem_cons.mp hb with rfl | hb2
      · exact absurd rfl hab
      · exact hx b hb2
    · rcases List.mem_cons.mp hb with rfl | hb2
      · exact fun hc => hx a ha2 hc.symm
      · exact ih hxs ha2 hb2

theorem pairwise_keys_fallbackVocab (n : Nat) (f : Nat → List String) :
    (fallbackVocab n f).Pairwise (fun p q => p.1 ≠ q.1) := by
  have haux : ∀ (l : List Nat) (d : List (String × Nat)),
      d.Pairwise (fun p q => p.1 ≠ q.1) →
      (l.foldl (fun d i => match f i with | [] => d | t :: _ => dictSet d t i) d).Pairwise
        (fun p q => p.1 ≠ q.1) := by
    intro l
    induction l with
    | nil => intro d hd; simpa using hd
    | cons i l ih =>
      intro d hd
      simp only [List.foldl_cons]
      rcases hfi : f i with _ | ⟨t, ts⟩
      · simp only [hfi]
        exact ih d hd
      · simp only [hfi]
        exact ih _ (pairwise_keys_dictSet d t i hd)
  exact haux (List.range n) [] List.Pairwise.nil

theorem fallback_unique_key (n : Nat) (f : Nat → List String) (t : String) (i i2 : Nat)
    (h1 : (t, i) ∈ fallbackVocab n f) (h2 : (t, i2) ∈ fallbackVocab n f) : i2 = i := by
  by_contra hne
  have hne2 : (t, i) ≠ (t, i2) := fun hc => hne ((congrArg Prod.snd hc).symm)
  exact pairwise_ne_of_mem (pairwise_keys_fallbackVocab n f) h1 h2 hne2 rfl

theorem fallback_last_wins (f : Nat → List String) :
    ∀ n t j, j < n → (f j).head? = some t →
      ∃ v, (t, v) ∈ fallbackVocab n f ∧ v < n ∧ (f v).head? = some t ∧
        ∀ i, i < n → (f i).head? = some t → i ≤ v := by
  intro n
  induction n with
  | zero => intro t j hj _; exact absurd hj (Nat.not_lt_zero j)
  | succ m ih =>
    intro t j hj hhead
    rcases hfm : f m with _ | ⟨u, us⟩
    · have hstep : fallbackVocab (m + 1) f = fallbackVocab m f := by
        rw [fallbackVocab_succ]
        simp only [hfm]
      have hjm : j < m := by
        rcases Nat.lt_succ_iff_lt_or_eq.mp hj with h | h
        · exact h
        · subst h
          rw [hfm] at hhead
          exact absurd hhead (by simp)
      obtain ⟨v, hv1, hv2, hv3, hv4⟩ := ih t j hjm hhead
      refine ⟨v, by rw [hstep]; exact hv1, Nat.lt_succ_of_lt hv2, hv3, ?_⟩
      intro i hi hht
      rcases Nat.lt_succ_iff_lt_or_eq.mp hi with h | h
      · exact hv4 i h hht
      · subst h
        rw [hfm] at hht
        exact absurd hht (by simp)
    · by_cases hut : u = t
      · subst hut
        refine ⟨m, ?_, Nat.lt_succ_self m, by rw [hfm]; rfl,
          fun i hi _ => Nat.lt_succ_iff.mp hi⟩
        rw [fallbackVocab_succ]
        simp only [hfm]
        exact mem_dictSet_self _ _ _
      · have hjm : j < m := by
          rcases Nat.lt_succ_iff_lt_or_eq.mp hj with h | h
          · exact h
          · subst h
            rw [hfm] at hhead
            simp only [List.head?_cons, Option.some.injEq] at hhead
            exact absurd hhead hut
        obtain ⟨v, hv1, hv2, hv3, hv4⟩ := ih t j hjm hhead
        refine ⟨v, ?_, Nat.lt_succ_of_lt hv2, hv3, ?_⟩
        · rw [fallbackVocab_succ]
          simp only [hfm]
          exact mem_dictSet_of_ne _ _ _ _ hv1 (fun hc => hut hc.symm)
        · intro i hi hht
          rcases Nat.lt_succ_iff_lt_or_eq.mp hi with h | h
          · exact hv4 i h hht
          · subst h
            rw [hfm] at hht
            simp only [List.head?_cons, Option.some.injEq] at hht
            exact absurd hht hut

/-- Claim C9 (amended): for a tokenizer exposing only an id-to-token lookup
over ids below the declared size, every entry of the produced mapping is a
token returned as the head of a non-empty lookup at its recorded id, so every
id whose lookup returned nothing contributes no entry; each entry is the
unique entry for its token and records the greatest id whose lookup returned
that token (a later id overwrites an earlier one, so only the last survives);
every token returned at some id is present; and when the returned tokens are
pairwise distinct the mapping contains exactly one entry per id with a
non-empty lookup, each token mapped to its id.  The unqualified claim fails
for duplicate tokens. -/
theorem fallback_vocab_entries_characterized (n : Nat) (f : Nat → List String)
    (tok : Tokenizer) (htok : tok = ⟨none, none, some n, some f⟩) :
    buildCtcVocab tok = Except.ok (fallbackVocab n f) ∧
    (∀ t i, (t, i) ∈ fallbackVocab n f → i < n ∧ (f i).head? = some t) ∧
    (∀ t i, (t, i) ∈ fallbackVocab n f →
      (∀ i2, (t, i2) ∈ fallbackVocab n f → i2 = i) ∧
      ∀ j, j < n → (f j).head? = some t → j ≤ i) ∧
    (∀ t j, j < n → (f j).head? = some t →
      ∃ v, (t, v) ∈ fallbackVocab n f ∧ j ≤ v) ∧
    ((∀ i ∈ List.range n, ∀ j ∈ List.range n, i ≠ j → f i ≠ [] → f j ≠ [] →
        (f i).head? ≠ (f j).head?) →
      fallbackVocab n f =
        (List.range n).filterMap (fun i => ((f i).head?).map (fun t => (t, i)))) := by
  subst htok
  refine ⟨rfl, fun t i hp => mem_fallbackVocab n f (t, i) hp, ?_, ?_,
    fallback_eq_filterMap f n⟩
  · intro t i hp
    refine ⟨fun i2 hp2 => fallback_unique_key n f t i i2 hp hp2, ?_⟩
    intro j hj hhead
    obtain ⟨v, hv1, _, _, hv4⟩ := fallback_last_wins f n t j hj hhead
    have hiv : i = v := fallback_unique_key n f t v i hv1 hp
    rw [hiv]
    exact hv4 j hj hhead
  · intro t j hj hhead
    obtain ⟨v, hv1, _, _, hv4⟩ := fallback_last_wins f n t j hj hhead
    exact ⟨v, hv1, hv4 j hj hhead⟩

/-- Lookup function for the claim C9 witness: id 0 yields token a, id 1
yields nothing, id 2 yields token b. -/
def f3 : Nat → List String :=
  fun i => if i = 0 then ["a"] else if i = 2 then ["b"] else []

/-- Tokenizer exposing only the id-to-token lookup f3 over three ids. -/
def lookupOnlyTok : Tokenizer := ⟨none, none, some 3, some f3⟩

/-- Witness for claim C9 (amended) at a concrete lookup-only tokenizer,
also discharging the pairwise-distinctness hypothesis of the exactness
conjunct there. -/
theorem fallback_vocab_entries_characterized_witness :
    (buildCtcVocab lookupOnlyTok = Except.ok (fallbackVocab 3 f3) ∧
      (∀ t i, (t, i) ∈ fallbackVocab 3 f3 → i < 3 ∧ (f3 i).head? = some t) ∧
      (∀ t i, (t, i) ∈ fallbackVocab 3 f3 →
        (∀ i2, (t, i2) ∈ fallbackVocab 3 f3 → i2 = i) ∧
        ∀ j, j < 3 → (f3 j).head? = some t → j ≤ i) ∧
      (∀ t j, j < 3 → (f3 j).head? = some t →
        ∃ v, (t, v) ∈ fallbackVocab 3 f3 ∧ j ≤ v) ∧
      ((∀ i ∈ List.range 3, ∀ j ∈ List.range 3, i ≠ j → f3 i ≠ [] → f3 j ≠ [] →
          (f3 i).head? ≠ (f3 j).head?) →
        fallbackVocab 3 f3 =
          (List.range 3).filterMap (fun i => ((f3 i).head?).map (fun t => (t, i))))) ∧
    fallbackVocab 3 f3 =
      (List.range 3).filterMap (fun i => ((f3 i).head?).map (fun t => (t, i))) := by
  have h := fallback_vocab_entries_characterized 3 f3 lookupOnlyTok rfl
  exact ⟨h, h.2.2.2.2 (by decide)⟩

end VoxtypeExport
